import Mathlib

/-!
Verification of the rotki frontend task-manager subsystem and the balances
store actions, shallowly embedded from the TypeScript sources
(`src/frontend/app/src/services/rotkehlchen-api.ts` and
`src/frontend/app/src/store/balances/actions.ts`).

JavaScript values are embedded as follows: nullable values become `Option`,
thrown exceptions become `Except String`, the handler table (a plain JS
object used as a string-keyed map) becomes an association list with
first-match lookup, and the store commits / notifications performed by the
task manager become an explicit event trace.
-/

set_option autoImplicit false

namespace Rotki

/-- Payload of a result (`result: any` on the wire); `empty` stands for the
literal `{}` object used by the synthetic results. -/
inductive RVal where
  | empty : RVal
  | obj : String → RVal
deriving DecidableEq, Repr

/-- The uniform `{ result, message }` envelope (`ActionResult<any>`). -/
structure ActionResult where
  result : RVal
  message : String
deriving DecidableEq, Repr

/-- Task types are stringly keyed in the handler table; the enum is embedded
by its (injective) string image. -/
abbrev TaskType := String

/-- `TaskMeta` fields used by the task manager (`@/model/task`). -/
structure TaskMeta where
  title : String
  description : String
  ignoreResult : Bool
  numericKeys : List String
deriving DecidableEq, Repr

/-- A registered task; `id` is nullable at runtime (`task.id == null` is
checked in `monitor`). -/
structure Task where
  id : Option Nat
  typ : TaskType
  meta : TaskMeta
deriving DecidableEq, Repr

/-- String image of a possibly-null task id, as produced by the JS template
literal interpolation of `task.id`. -/
def idString : Option Nat → String
  | none => "null"
  | some n => toString n

/-- A handler callback `(result, meta) -> void`; a JS throw is embedded as
`Except.error` carrying `e.message`. -/
def Handler := ActionResult → TaskMeta → Except String Unit

/-- The `handler` field of `TaskManager`: a string-keyed table. -/
def HandlerMap := List (String × Handler)

/-- JS property lookup `this.handler[key]` (first match wins; registration
prepends, modelling assignment). -/
def findHandler : HandlerMap → String → Option Handler
  | [], _ => none
  | (k, h) :: rest, key => if k = key then some h else findHandler rest key

/-- `const identifier = taskId ? `${task}-${taskId}` : task;` -/
def handlerIdentifier (task : TaskType) (taskId : Option String) : String :=
  match taskId with
  | some i => task ++ "-" ++ i
  | none => task

/-- `TaskManager.registerHandler`: `this.handler[identifier] = handlerImpl`. -/
def registerHandler (m : HandlerMap) (task : TaskType) (handlerImpl : Handler)
    (taskId : Option String) : HandlerMap :=
  (handlerIdentifier task taskId, handlerImpl) :: m

/-- `TaskManager.unregisterHandler`: `delete this.handler[identifier]`. -/
def unregisterHandler (m : HandlerMap) (task : TaskType) (taskId : Option String) :
    HandlerMap :=
  m.filter (fun p => decide (p.1 ≠ handlerIdentifier task taskId))

/-- The handler lookup of `TaskManager.handleResult`:
`this.handler[task.type] ?? this.handler[`${task.type}-${task.id}`]`,
returning the key under which the handler was found together with the
handler. -/
def lookupHandlerK (m : HandlerMap) (t : Task) : Option (String × Handler) :=
  match findHandler m t.typ with
  | some h => some (t.typ, h)
  | none =>
    match findHandler m (t.typ ++ "-" ++ idString t.id) with
    | some h => some (t.typ ++ "-" ++ idString t.id, h)
    | none => none

/-- Message of the `monitor` diagnostic for a null task id (inline string in
the source): `Task ${task.type} -> ${task.meta.description} had a null
identifier`. -/
def nullIdMessage (t : Task) : String :=
  "Task " ++ t.typ ++ " -> " ++ t.meta.description ++ " had a null identifier"

/-- Message of the no-handler diagnostic (inline string in the source):
No handler found for task [quote]type[quote] with id [id]. -/
def noHandlerMessage (t : Task) : String :=
  "No handler found for task \x27" ++ t.typ ++ "\x27 with id " ++ idString t.id

/-- Modelled from the spec: the locale template `task_manager.not_found`
(the locale file is not under `src/`); the spec requires a localized
not-found message built from the task id and title. -/
def notFoundMessage (n : Nat) (title : String) : String :=
  "Task with id " ++ toString n ++ (" and title " ++ title ++ " could not be found")

/-- Modelled from the spec: the locale template `task_manager.error`
(the locale file is not under `src/`); the spec requires a synthetic failure
message carrying the message of the thrown error. -/
def errorMessageBase (id : Option Nat) (title : String) : String :=
  "Task " ++ idString id ++ " with title " ++ title ++ " failed with an error: "

/-- The synthetic failure `ActionResult` passed back to a throwing handler. -/
def errorResult (t : Task) (errMessage : String) : ActionResult :=
  { result := RVal.empty
    message := errorMessageBase t.id t.meta.title ++ errMessage }

/-- The synthetic not-found `ActionResult` built in the catch of `monitor`. -/
def notFoundResult (n : Nat) (title : String) : ActionResult :=
  { result := RVal.empty, message := notFoundMessage n title }

/-- Observable effects of the task manager: store commits (`tasks/lock`,
`tasks/unlock`, `tasks/remove`), the poll request issued via
`api.queryTaskResult`, handler invocations, and `notify` calls
(message, title). -/
inductive Event where
  | lock : Nat → Event
  | unlock : Nat → Event
  | remove : Option Nat → Event
  | poll : Nat → Event
  | invoke : String → ActionResult → TaskMeta → Event
  | notif : String → String → Event
deriving DecidableEq, Repr

/-- Event counter (used to state once/at-most-once properties). -/
def countEv (p : Event → Bool) : List Event → Nat
  | [] => 0
  | e :: es => (if p e then 1 else 0) + countEv p es

/-- Recognizes a handler invocation event. -/
def isInvoke : Event → Bool
  | Event.invoke _ _ _ => true
  | _ => false

/-- Number of poll requests for a given task id in a trace. -/
def pollCount (evs : List Event) (n : Nat) : Nat :=
  countEv (fun e => e = Event.poll n) evs

/-- `TaskManager.handleResult`, as the trace of effects it performs plus the
exception escaping it, if any:
1. if `task.meta.ignoreResult`, commit `tasks/remove` and return;
2. if the result is null, return;
3. look up the handler (`type` key first, then `type-id`); if none, notify
   and commit `tasks/remove`;
4. otherwise invoke the handler inside try/catch: on a throw, re-invoke the
   same handler with the synthetic failure result (this second call is not
   guarded, so its own throw escapes and skips the final remove);
5. commit `tasks/remove`. -/
def handleResult (m : HandlerMap) (res : Option ActionResult) (t : Task) :
    List Event × Option String :=
  if t.meta.ignoreResult then
    ([Event.remove t.id], none)
  else
    match res with
    | none => ([], none)
    | some r =>
      match lookupHandlerK m t with
      | none =>
        ([Event.notif (noHandlerMessage t) ("Tasks"), Event.remove t.id], none)
      | some (k, h) =>
        match h r t.meta with
        | Except.ok _ =>
          ([Event.invoke k r t.meta, Event.remove t.id], none)
        | Except.error em =>
          match h (errorResult t em) t.meta with
          | Except.ok _ =>
            ([Event.invoke k r t.meta, Event.invoke k (errorResult t em) t.meta,
              Event.remove t.id], none)
          | Except.error em2 =>
            ([Event.invoke k r t.meta, Event.invoke k (errorResult t em) t.meta],
              some em2)

/-- The catch continuation of the poll issued by `monitor` when the rejection is a
`TaskNotFoundError`: commit `tasks/unlock` and `tasks/remove`, then call
`handleResult` with the synthetic not-found result. (Only tasks with a
non-null id are ever polled; the `none` branch is unreachable.) -/
def deliverNotFound (m : HandlerMap) (t : Task) : List Event × Option String :=
  match t.id with
  | none => ([], none)
  | some n =>
    let (evs, esc) := handleResult m (some (notFoundResult n t.meta.title)) t
    (Event.unlock n :: Event.remove (some n) :: evs, esc)

/-- The tasks store-module state read by `monitor`. Modelled from the spec:
the tasks store module itself is not under `src/`; the spec describes the
registry as `{ tasks: mapping<id, Task>, locked: set<id> }` with `lock`
adding the id to the locked set. The mapping is embedded as the list of its
tasks in iteration order. -/
structure TaskState where
  tasks : List Task
  locked : List Nat
deriving DecidableEq, Repr

/-- The loop body of `TaskManager.monitor` over the remaining tasks,
threading the locked set (the `tasks/lock` commit is visible to the
`locked.indexOf` test of later iterations) and collecting the emitted
events: a task with a null id is notified about and skipped; a locked task
is skipped; otherwise the id is locked and a poll request is issued. -/
def monitorGo (locked : List Nat) : List Task → List Nat × List Event
  | [] => (locked, [])
  | t :: ts =>
    match t.id with
    | none =>
      let (l2, evs) := monitorGo locked ts
      (l2, Event.notif (nullIdMessage t) ("Invalid task found") :: evs)
    | some n =>
      if n ∈ locked then monitorGo locked ts
      else
        let (l2, evs) := monitorGo (locked ++ [n]) ts
        (l2, Event.lock n :: Event.poll n :: evs)

/-- `TaskManager.monitor`: the synchronous part of one poll iteration (the
asynchronous result deliveries are `handleResult` / `deliverNotFound`). -/
def monitor (s : TaskState) : TaskState × List Event :=
  let (l2, evs) := monitorGo s.locked s.tasks
  ({ s with locked := l2 }, evs)

/-! Section: the RotkehlchenApi.queryTaskResult method. -/

/-- The `TaskResult` envelope of the polling endpoint: `outcome` is the
nested `ActionResult` or null while pending. -/
structure TaskEnvelope where
  outcome : Option ActionResult
deriving DecidableEq, Repr

/-- The HTTP response of `GET /tasks/{id}`: status plus the
`{ result, message }` body; `result` is null/absent when the body carries
only an error message. -/
structure TaskResponse where
  status : Nat
  result : Option TaskEnvelope
  message : String
deriving DecidableEq, Repr

/-- Rejection reasons of `queryTaskResult`: the dedicated
`TaskNotFoundError`, or a plain `Error` (axios status rejection,
the message thrown by `handleResponse`, or the generic no-result error). -/
inductive QueryError where
  | taskNotFound : String → QueryError
  | apiError : String → QueryError
deriving DecidableEq, Repr

/-- Modelled from the spec: `validTaskStatus` (`@/services/utils`, not under
`src/`) is the accepted-status predicate of the task polling endpoint; the
spec says the endpoint answers with a result envelope (2xx), a pending
indicator, or a 404, and any other status rejects. -/
def validTaskStatus (status : Nat) : Bool :=
  (200 ≤ status && status < 300) || status == 404

/-- `RotkehlchenApi.queryTaskResult`: statuses outside the accepted
predicate reject at the axios layer; a 404 throws `TaskNotFoundError`;
otherwise `handleResponse` (modelled from the spec: `@/services/utils` is
not under `src/`: it unwraps `{ result, message }`, throwing `message` when
`result` is missing) yields the `TaskResult`, whose missing `outcome`
throws `Error(\x27No result\x27)`. -/
def queryTaskResult (id : Nat) (resp : TaskResponse) : Except QueryError ActionResult :=
  if !validTaskStatus resp.status then
    Except.error (QueryError.apiError ("Request failed"))
  else if resp.status == 404 then
    Except.error (QueryError.taskNotFound ("Task with id " ++ toString id ++ " not found"))
  else
    match resp.result with
    | none => Except.error (QueryError.apiError resp.message)
    | some env =>
      match env.outcome with
      | some outcome => Except.ok outcome
      | none => Except.error (QueryError.apiError ("No result"))

/-! Section: the balances store actions, from store/balances/actions.ts. -/

/-- Observable effects of the `addAccount` / `removeAccount` actions:
the `tasks/add` commit, the `updateBalances` dispatch (domain-state
commit), the `defi/reset` commit, the `resetDefiStatus` dispatch, and the
error notification. -/
inductive AEvent where
  | addTask : Nat → AEvent
  | updateBalances : String → RVal → AEvent
  | defiReset : AEvent
  | resetDefiStatus : AEvent
  | notifyErr : String → AEvent
deriving DecidableEq, Repr

/-- Outcomes of the awaited asynchronous steps of an account action: the
initial API call returning the task id, and the awaited task completion. -/
structure ActionEnv where
  apiCall : Except String Nat
  completion : Except String RVal
deriving Repr

/-- Modelled from the spec: the locale template
`actions.balances.blockchain_account_removal.error.description` (locale
file not under `src/`); the spec requires a user-visible notification
carrying the error. -/
def removalErrorMsg (err : String) : String :=
  "Failed to remove the account: " ++ err

/-- Modelled from the spec: the locale template
`actions.balances.blockchain_account_add.error.description` (locale file
not under `src/`). -/
def additionErrorMsg (err : String) : String :=
  "Failed to add the account: " ++ err

/-- `actions.removeAccount`: the initial
`await api.removeBlockchainAccount(blockchain, address)` stands OUTSIDE the
try block, so its rejection escapes the action; the rest (tasks/add commit,
awaited completion, updateBalances dispatch, defi resets) is guarded by the
catch that notifies. -/
def removeAccountAction (env : ActionEnv) (blockchain : String) : List AEvent × Option String :=
  match env.apiCall with
  | Except.error e => ([], some e)
  | Except.ok taskId =>
    match env.completion with
    | Except.error e =>
      ([AEvent.addTask taskId, AEvent.notifyErr (removalErrorMsg e)], none)
    | Except.ok result =>
      ([AEvent.addTask taskId, AEvent.updateBalances blockchain result,
        AEvent.defiReset, AEvent.resetDefiStatus], none)

/-- `actions.addAccount`: the whole body, including the initial
`await api.addBlockchainAccount(payload)`, sits inside the try block whose
catch notifies. -/
def addAccountAction (env : ActionEnv) (blockchain : String) : List AEvent × Option String :=
  match env.apiCall with
  | Except.error e => ([AEvent.notifyErr (additionErrorMsg e)], none)
  | Except.ok taskId =>
    match env.completion with
    | Except.error e =>
      ([AEvent.addTask taskId, AEvent.notifyErr (additionErrorMsg e)], none)
    | Except.ok result =>
      ([AEvent.addTask taskId, AEvent.updateBalances blockchain result,
        AEvent.defiReset, AEvent.resetDefiStatus], none)

/-! Section: the removeTag and removeTags helpers of store/balances/actions.ts. -/

/-- An account record with a nullable tag list (`GeneralAccountData`). -/
structure Account where
  address : String
  tags : Option (List String)
deriving DecidableEq, Repr

/-- An xpub account record (`XpubAccountData`): nullable tag list and a
nullable list of derived address accounts. -/
structure XpubAccount where
  xpub : String
  tags : Option (List String)
  addresses : Option (List Account)
deriving DecidableEq, Repr

/-- `BtcAccountData`: standalone accounts plus xpub groups. -/
structure BtcAccounts where
  standalone : List Account
  xpubs : List XpubAccount
deriving DecidableEq, Repr

/-- The module-level `removeTag` helper: null input gives null;
`indexOf < 0` (i.e. the tag is absent, `indexOf = length` in the
embedding) gives null; otherwise the list without the first occurrence
(`slice(0, index) ++ slice(index + 1)`). -/
def removeTag (tags : Option (List String)) (tagName : String) : Option (List String) :=
  match tags with
  | none => none
  | some ts =>
    let index := ts.indexOf tagName
    if ts.length ≤ index then none
    else some (ts.take index ++ ts.drop (index + 1))

/-- The per-account step of the `removeTags` loop: when `removeTag` gives
null the account is kept as is, otherwise its tags are replaced. -/
def applyRemoveTag (tagName : String) (account : Account) : Account :=
  match removeTag account.tags tagName with
  | none => account
  | some tags => { account with tags := some tags }

/-- The module-level `removeTags` helper (the copy-and-update loop is a
pointwise map). -/
def removeTags (data : List Account) (tagName : String) : List Account :=
  data.map (applyRemoveTag tagName)

/-- The per-xpub update performed by `actions.removeTag`: tags via the
`removeTag` helper (so null whenever the tag is absent), addresses via
`removeTags` when present. -/
def updateXpub (tagName : String) (xpub : XpubAccount) : XpubAccount :=
  { xpub with
    tags := removeTag xpub.tags tagName
    addresses := xpub.addresses.map (fun a => removeTags a tagName) }

/-- `actions.removeTag`: the new eth accounts and the new btc accounts
committed by the action. -/
def removeTagAction (ethAccounts : List Account) (btcAccounts : BtcAccounts)
    (tagName : String) : List Account × BtcAccounts :=
  (removeTags ethAccounts tagName,
    { standalone := removeTags btcAccounts.standalone tagName
      xpubs := btcAccounts.xpubs.map (updateXpub tagName) })

/-! Section: helper lemmas about event counting and the monitor loop. -/

theorem countEv_append (p : Event → Bool) (l1 l2 : List Event) :
    countEv p (l1 ++ l2) = countEv p l1 + countEv p l2 := by
  induction l1 with
  | nil => simp [countEv]
  | cons e es ih => simp [countEv, ih]; omega

theorem pollCount_append (l1 l2 : List Event) (n : Nat) :
    pollCount (l1 ++ l2) n = pollCount l1 n + pollCount l2 n := by
  simp [pollCount, countEv_append]

theorem pollCount_nil (n : Nat) : pollCount [] n = 0 := rfl

theorem pollCount_cons_ne (e : Event) (evs : List Event) (n : Nat)
    (h : e ≠ Event.poll n) : pollCount (e :: evs) n = pollCount evs n := by
  simp [pollCount, countEv, h]

theorem pollCount_cons_poll (evs : List Event) (n : Nat) :
    pollCount (Event.poll n :: evs) n = pollCount evs n + 1 := by
  simp [pollCount, countEv]
  omega

/-- A locked id is never polled by the rest of the pass, and stays locked. -/
theorem monitorGo_locked_not_polled (n : Nat) (ts : List Task) :
    ∀ locked, n ∈ locked →
      pollCount (monitorGo locked ts).2 n = 0 ∧ n ∈ (monitorGo locked ts).1 := by
  induction ts with
  | nil => intro locked hmem; simpa [monitorGo, pollCount_nil] using hmem
  | cons t ts ih =>
    intro locked hmem
    cases hid : t.id with
    | none =>
      rcases hgo : monitorGo locked ts with ⟨l2, evs⟩
      have := ih locked hmem
      rw [hgo] at this
      simp only [monitorGo, hid, hgo]
      exact ⟨by rw [pollCount_cons_ne _ _ _ (by simp)]; exact this.1, this.2⟩
    | some m =>
      by_cases hm : m ∈ locked
      · simp only [monitorGo, hid, if_pos hm]
        exact ih locked hmem
      · rcases hgo : monitorGo (locked ++ [m]) ts with ⟨l2, evs⟩
        have hmem2 : n ∈ locked ++ [m] := List.mem_append_left _ hmem
        have := ih (locked ++ [m]) hmem2
        rw [hgo] at this
        have hmn : m ≠ n := fun hc => hm (hc ▸ hmem)
        simp only [monitorGo, hid, if_neg hm, hgo]
        refine ⟨?_, this.2⟩
        rw [pollCount_cons_ne _ _ _ (by simp), pollCount_cons_ne _ _ _ (by simp [hmn])]
        exact this.1

/-- One pass polls an id at most once, and any id it polls ends locked. -/
theorem monitorGo_poll_once (n : Nat) (ts : List Task) :
    ∀ locked, pollCount (monitorGo locked ts).2 n ≤ 1 ∧
      (1 ≤ pollCount (monitorGo locked ts).2 n → n ∈ (monitorGo locked ts).1) := by
  induction ts with
  | nil => intro locked; simp [monitorGo, pollCount_nil]
  | cons t ts ih =>
    intro locked
    cases hid : t.id with
    | none =>
      rcases hgo : monitorGo locked ts with ⟨l2, evs⟩
      have := ih locked
      rw [hgo] at this
      simp only [monitorGo, hid, hgo]
      rw [pollCount_cons_ne _ _ _ (by simp)]
      exact this
    | some m =>
      by_cases hm : m ∈ locked
      · simp only [monitorGo, hid, if_pos hm]
        exact ih locked
      · rcases hgo : monitorGo (locked ++ [m]) ts with ⟨l2, evs⟩
        simp only [monitorGo, hid, if_neg hm, hgo]
        by_cases hnm : n = m
        · subst hnm
          have hlocked := monitorGo_locked_not_polled n ts (locked ++ [n])
            (List.mem_append_right _ (List.mem_singleton_self n))
          rw [hgo] at hlocked
          rw [pollCount_cons_ne _ _ _ (by simp), pollCount_cons_poll]
          rw [hlocked.1]
          exact ⟨by omega, fun _ => hlocked.2⟩
        · have hmn : m ≠ n := fun hc => hnm hc.symm
          have := ih (locked ++ [m])
          rw [hgo] at this
          rw [pollCount_cons_ne _ _ _ (by simp),
            pollCount_cons_ne _ _ _ (by simp [hmn])]
          exact this

/-- Claim C3: successive `monitor()` invocations with no intervening result
issue at most one poll request per task id: the first pass locks any id it
polls, and later passes skip locked ids. -/
theorem monitor_twice_at_most_one_poll (s : TaskState) (n : Nat) :
    pollCount ((monitor s).2 ++ (monitor (monitor s).1).2) n ≤ 1 := by
  rcases h1 : monitorGo s.locked s.tasks with ⟨l1, evs1⟩
  rcases h2 : monitorGo l1 s.tasks with ⟨l2, evs2⟩
  have b1 := monitorGo_poll_once n s.tasks s.locked
  have b2 := monitorGo_poll_once n s.tasks l1
  rw [h1] at b1
  rw [h2] at b2
  simp only [monitor, h1, h2]
  rw [pollCount_append]
  dsimp only at b1 b2
  by_cases hz : 1 ≤ pollCount evs1 n
  · have hl1 : n ∈ l1 := b1.2 hz
    have hz2 := monitorGo_locked_not_polled n s.tasks l1 hl1
    rw [h2] at hz2
    have hz3 : pollCount evs2 n = 0 := hz2.1
    have hb1 : pollCount evs1 n ≤ 1 := b1.1
    omega
  · have hb2 : pollCount evs2 n ≤ 1 := b2.1
    omega

/-- Single-pass structure of `monitor` on null-id tasks: the poll emits one
diagnostic notification per null-id task in the registry (counted per
message), never polls an id that no task carries, and leaves the task list
untouched. -/
theorem monitorGo_notif_count (msg : String) (ts : List Task) (locked : List Nat) :
    countEv (fun e => e = Event.notif msg ("Invalid task found")) (monitorGo locked ts).2
      = (ts.filter (fun t => decide (t.id = none) && decide (nullIdMessage t = msg))).length := by
  induction ts generalizing locked with
  | nil => simp [monitorGo, countEv]
  | cons t ts ih =>
    cases hid : t.id with
    | none =>
      rcases hgo : monitorGo locked ts with ⟨l2, evs⟩
      have := ih locked
      rw [hgo] at this
      simp only [monitorGo, hid, hgo, List.filter_cons]
      by_cases hm : nullIdMessage t = msg
      · simp [countEv, hid, hm, this]
        omega
      · simp [countEv, hid, hm, this, Event.notif.injEq]
    | some m =>
      by_cases hmem : m ∈ locked
      · simp only [monitorGo, hid, if_pos hmem, List.filter_cons]
        simp [ih locked, hid]
      · rcases hgo : monitorGo (locked ++ [m]) ts with ⟨l2, evs⟩
        have := ih (locked ++ [m])
        rw [hgo] at this
        simp only [monitorGo, hid, if_neg hmem, hgo, List.filter_cons]
        simp [countEv, hid, this]

/-- Polls target only ids carried by some task in the registry. -/
theorem monitorGo_poll_source (n : Nat) (ts : List Task) :
    ∀ locked, (∀ t, t ∈ ts → t.id ≠ some n) →
      pollCount (monitorGo locked ts).2 n = 0 := by
  induction ts with
  | nil => intro locked h; simp [monitorGo, pollCount, countEv]
  | cons t ts ih =>
    intro locked h
    have hts : ∀ t2, t2 ∈ ts → t2.id ≠ some n := fun t2 hm => h t2 (List.mem_cons_of_mem t hm)
    cases hid : t.id with
    | none =>
      rcases hgo : monitorGo locked ts with ⟨l2, evs⟩
      have := ih locked hts
      rw [hgo] at this
      simp only [monitorGo, hid, hgo]
      dsimp only at this
      rw [pollCount_cons_ne _ _ _ (by simp)]
      exact this
    | some m =>
      have hmn : m ≠ n := by
        intro heq
        exact h t (List.mem_cons_self t ts) (by rw [hid, heq])
      by_cases hmem : m ∈ locked
      · simp only [monitorGo, hid, if_pos hmem]
        exact ih locked hts
      · rcases hgo : monitorGo (locked ++ [m]) ts with ⟨l2, evs⟩
        have := ih (locked ++ [m]) hts
        rw [hgo] at this
        simp only [monitorGo, hid, if_neg hmem, hgo]
        dsimp only at this
        rw [pollCount_cons_ne _ _ _ (by simp), pollCount_cons_ne _ _ _ (by simp [hmn])]
        exact this

/-- Claim C4 (amended): a task with a null id is never polled and never
removed, but the diagnostic notification is emitted on every `monitor()`
invocation that encounters it — once per invocation per matching task, not
only on the first invocation. -/
theorem monitor_null_id_behaviour (s : TaskState) :
    (∀ msg, countEv (fun e => e = Event.notif msg ("Invalid task found")) (monitor s).2
        = (s.tasks.filter (fun t => decide (t.id = none) && decide (nullIdMessage t = msg))).length)
      ∧ (∀ n, (∀ t, t ∈ s.tasks → t.id ≠ some n) → pollCount (monitor s).2 n = 0)
      ∧ (monitor s).1.tasks = s.tasks := by
  rcases h1 : monitorGo s.locked s.tasks with ⟨l1, evs1⟩
  refine ⟨fun msg => ?_, fun n hn => ?_, ?_⟩
  · have := monitorGo_notif_count msg s.tasks s.locked
    rw [h1] at this
    simpa [monitor, h1] using this
  · have := monitorGo_poll_source n s.tasks s.locked hn
    rw [h1] at this
    dsimp only at this
    simpa [monitor, h1] using this
  · simp [monitor, h1]

/-- Concrete instances used by counterexamples and witnesses. -/
def cexMetaNull : TaskMeta :=
  { title := "Query", description := "balance query", ignoreResult := false, numericKeys := [] }

def cexNullTask : Task := { id := none, typ := "T", meta := cexMetaNull }

def cexNullState : TaskState := { tasks := [cexNullTask], locked := [] }

/-- Claim C4 counterexample: with a single null-id task in the registry,
two successive `monitor()` invocations emit the diagnostic notification
twice — the claim says it is emitted exactly once, on the first poll that
encounters the task. -/
theorem monitor_null_id_notified_twice_cex :
    countEv (fun e => e = Event.notif (nullIdMessage cexNullTask) ("Invalid task found"))
        ((monitor cexNullState).2 ++ (monitor (monitor cexNullState).1).2) = 2 := by
  decide

/-- Witness for the amended C4 theorem at a concrete state. -/
theorem monitor_null_id_behaviour_witness :
    pollCount (monitor cexNullState).2 7 = 0
      ∧ (monitor cexNullState).1.tasks = cexNullState.tasks :=
  ⟨(monitor_null_id_behaviour cexNullState).2.1 7 (by decide),
    (monitor_null_id_behaviour cexNullState).2.2⟩

/-! Section: handler dispatch claims. -/

/-- Concrete handler that records nothing and returns normally. -/
def hTypeOnly : Handler := fun _ _ => Except.ok ()

/-- Concrete id-qualified handler, observably different from `hTypeOnly`
(it throws, so its invocation would leave a second synthetic invoke in the
trace). -/
def hIdSpecific : Handler := fun _ _ => Except.error ("id specific handler")

/-- Concrete handler that throws on every invocation. -/
def hAlwaysThrow : Handler := fun _ _ => Except.error ("boom")

/-- Concrete handler that throws on the first (payload) result and returns
normally on anything else, such as the synthetic failure result. -/
def hThrowOnFirst : Handler := fun r _ =>
  if r.result = RVal.obj ("payload") then Except.error ("first failure") else Except.ok ()

def cexMeta : TaskMeta :=
  { title := "Query", description := "", ignoreResult := false, numericKeys := [] }

def cexTask5 : Task := { id := some 5, typ := "T", meta := cexMeta }

def cexResult : ActionResult := { result := RVal.obj ("payload"), message := "" }

/-- Handler table with both a type-only entry and a type-id entry for
task type T and id 5. -/
def cexBothMap : HandlerMap := [(("T" : String), hTypeOnly), (("T-5" : String), hIdSpecific)]

/-- Claim C1 counterexample: with both a type-only handler and a
type-id-qualified handler registered, the dispatched invocation uses the
type-only key, not the exact type-id key, because the source looks up
`task.type` first and only falls back to the qualified key. -/
theorem handler_lookup_type_key_shadows_cex :
    (handleResult cexBothMap (some cexResult) cexTask5).1
        = [Event.invoke ("T") cexResult cexMeta, Event.remove (some 5)]
      ∧ Event.invoke ("T-5") cexResult cexMeta ∉ (handleResult cexBothMap (some cexResult) cexTask5).1 := by
  constructor
  · rfl
  · intro hmem
    simp [handleResult, lookupHandlerK, findHandler, cexBothMap, cexTask5, cexMeta,
      hTypeOnly, idString] at hmem

/-- Claim C1 (amended): the handler lookup prefers the type-only key and
falls back to the exact type-id key: whenever a type-only handler is
registered it is the one invoked, regardless of any type-id entry; the
type-id entry is used only when no type-only entry exists. -/
theorem handler_lookup_prefers_type_key
    (m : HandlerMap) (t : Task) (h : Handler) (r : ActionResult)
    (hT : findHandler m t.typ = some h)
    (hIg : t.meta.ignoreResult = false) :
    lookupHandlerK m t = some (t.typ, h)
      ∧ (handleResult m (some r) t).1.head? = some (Event.invoke t.typ r t.meta)
      ∧ (∀ m2 h2, findHandler m2 t.typ = none
          → findHandler m2 (t.typ ++ "-" ++ idString t.id) = some h2
          → lookupHandlerK m2 t = some (t.typ ++ "-" ++ idString t.id, h2)) := by
  refine ⟨by simp [lookupHandlerK, hT], ?_, fun m2 h2 h0 hfb => by simp [lookupHandlerK, h0, hfb]⟩
  have hlk : lookupHandlerK m t = some (t.typ, h) := by simp [lookupHandlerK, hT]
  cases hr : h r t.meta with
  | ok u => simp [handleResult, hIg, hlk, hr]
  | error em =>
    cases hr2 : h (errorResult t em) t.meta with
    | ok u => simp [handleResult, hIg, hlk, hr, hr2]
    | error em2 => simp [handleResult, hIg, hlk, hr, hr2]

/-- Witness for the amended C1 theorem at the concrete both-registered
table. -/
theorem handler_lookup_prefers_type_key_witness :
    lookupHandlerK cexBothMap cexTask5 = some (("T" : String), hTypeOnly)
      ∧ (handleResult cexBothMap (some cexResult) cexTask5).1.head?
        = some (Event.invoke ("T") cexResult cexMeta) :=
  ⟨(handler_lookup_prefers_type_key cexBothMap cexTask5 hTypeOnly cexResult rfl rfl).1,
    (handler_lookup_prefers_type_key cexBothMap cexTask5 hTypeOnly cexResult rfl rfl).2.1⟩

def c2Meta : TaskMeta :=
  { title := "Query balances", description := "", ignoreResult := true, numericKeys := [] }

def c2Task : Task := { id := some 9, typ := "B", meta := c2Meta }

def c2Map : HandlerMap := [(("B" : String), hTypeOnly)]

/-- Claim C2 counterexample: a registered task with `ignoreResult` set whose
poll rejects with not-found is removed, but its registered handler is
invoked zero times, not exactly once. -/
theorem notFound_ignoreResult_no_invocation_cex :
    deliverNotFound c2Map c2Task
        = ([Event.unlock 9, Event.remove (some 9), Event.remove (some 9)], none)
      ∧ countEv isInvoke (deliverNotFound c2Map c2Task).1 = 0 := by
  constructor
  · rfl
  · rfl

/-- Claim C2 (amended): when a poll rejects with not-found, the task is
unlocked and removed from the registry; if its metadata does not set
`ignoreResult`, a handler is registered for it, and that handler returns
normally on the synthetic result, the handler is invoked exactly once, with
a synthetic result whose message is non-empty and contains the task id. -/
theorem notFound_removes_and_invokes_once
    (m : HandlerMap) (t : Task) (n : Nat) (k : String) (h : Handler)
    (hid : t.id = some n)
    (hk : lookupHandlerK m t = some (k, h))
    (hIg : t.meta.ignoreResult = false)
    (hok : h (notFoundResult n t.meta.title) t.meta = Except.ok ()) :
    deliverNotFound m t
        = ([Event.unlock n, Event.remove (some n),
            Event.invoke k (notFoundResult n t.meta.title) t.meta, Event.remove (some n)], none)
      ∧ countEv isInvoke (deliverNotFound m t).1 = 1
      ∧ notFoundMessage n t.meta.title ≠ ""
      ∧ (∃ a b, notFoundMessage n t.meta.title = a ++ toString n ++ b) := by
  have hev : deliverNotFound m t
      = ([Event.unlock n, Event.remove (some n),
          Event.invoke k (notFoundResult n t.meta.title) t.meta, Event.remove (some n)], none) := by
    have : h (notFoundResult n t.meta.title) t.meta = Except.ok () := hok
    simp [deliverNotFound, hid, handleResult, hIg, hk, this]
  refine ⟨hev, ?_, ?_, ⟨"Task with id ", " and title " ++ t.meta.title ++ " could not be found", rfl⟩⟩
  · rw [hev]
    simp [countEv, isInvoke]
  · intro hc
    have hlen := congrArg String.length hc
    have h13 : ("Task with id " : String).length = 13 := rfl
    have h0 : ("" : String).length = 0 := rfl
    rw [notFoundMessage] at hlen
    simp only [String.length_append, h13, h0] at hlen
    omega

/-- Witness for the amended C2 theorem with a concrete registered handler. -/
theorem notFound_removes_and_invokes_once_witness :
    deliverNotFound [(("T" : String), hTypeOnly)] cexTask5
        = ([Event.unlock 5, Event.remove (some 5),
            Event.invoke ("T") (notFoundResult 5 cexMeta.title) cexMeta, Event.remove (some 5)], none)
      ∧ countEv isInvoke (deliverNotFound [(("T" : String), hTypeOnly)] cexTask5).1 = 1
      ∧ notFoundMessage 5 cexMeta.title ≠ ""
      ∧ (∃ a b, notFoundMessage 5 cexMeta.title = a ++ toString 5 ++ b) :=
  notFound_removes_and_invokes_once [(("T" : String), hTypeOnly)] cexTask5 5 ("T") hTypeOnly
    rfl rfl rfl rfl

def c5Map : HandlerMap := [(("T" : String), hAlwaysThrow)]

/-- Claim C5 counterexample: when the handler also throws on the synthetic
failure result, the second exception escapes `handleResult` and the final
remove commit is skipped, so the task is not removed. -/
theorem handler_double_throw_escapes_cex :
    handleResult c5Map (some cexResult) cexTask5
        = ([Event.invoke ("T") cexResult cexMeta,
            Event.invoke ("T") (errorResult cexTask5 ("boom")) cexMeta], some ("boom"))
      ∧ Event.remove (some 5) ∉ (handleResult c5Map (some cexResult) cexTask5).1 := by
  constructor
  · rfl
  · intro hmem
    simp [handleResult, lookupHandlerK, findHandler, c5Map, cexTask5, cexMeta,
      hAlwaysThrow, errorResult, idString] at hmem

/-- Claim C5 (amended): if the handler throws while processing a successful
result, that exception is swallowed and the same handler is invoked a
second time with a synthetic failure result whose message carries the
thrown message; provided the second invocation returns normally, the task
is then removed and no exception escapes the dispatch. -/
theorem handler_throw_synthetic_redelivery
    (m : HandlerMap) (t : Task) (r : ActionResult) (k : String) (h : Handler) (em : String)
    (hIg : t.meta.ignoreResult = false)
    (hk : lookupHandlerK m t = some (k, h))
    (hthrow : h r t.meta = Except.error em)
    (hok : h (errorResult t em) t.meta = Except.ok ()) :
    handleResult m (some r) t
        = ([Event.invoke k r t.meta, Event.invoke k (errorResult t em) t.meta,
            Event.remove t.id], none)
      ∧ (∃ a, (errorResult t em).message = a ++ em) := by
  refine ⟨by simp [handleResult, hIg, hk, hthrow, hok], ⟨errorMessageBase t.id t.meta.title, rfl⟩⟩

/-- Witness for the amended C5 theorem with a handler that throws on the
payload result and accepts the synthetic one. -/
theorem handler_throw_synthetic_redelivery_witness :
    handleResult [(("T" : String), hThrowOnFirst)] (some cexResult) cexTask5
        = ([Event.invoke ("T") cexResult cexMeta,
            Event.invoke ("T") (errorResult cexTask5 ("first failure")) cexMeta,
            Event.remove (some 5)], none)
      ∧ (∃ a, (errorResult cexTask5 ("first failure")).message = a ++ "first failure") :=
  handler_throw_synthetic_redelivery [(("T" : String), hThrowOnFirst)] cexTask5 cexResult
    ("T") hThrowOnFirst ("first failure") rfl rfl rfl rfl

/-- Deleting a key makes lookup of that key fail. -/
theorem findHandler_filter_self (m : HandlerMap) (key : String) :
    findHandler (m.filter (fun p => decide (p.1 ≠ key))) key = none := by
  induction m with
  | nil => rfl
  | cons p rest ih =>
    simp only [ne_eq, decide_not] at ih ⊢
    by_cases hk : p.1 = key
    · simp [List.filter_cons, hk, ih]
    · simp [List.filter_cons, hk, findHandler, ih]

/-- Deleting a key leaves lookup of other keys unchanged. -/
theorem findHandler_filter_ne (m : HandlerMap) (key k : String) (hne : k ≠ key) :
    findHandler (m.filter (fun p => decide (p.1 ≠ key))) k = findHandler m k := by
  induction m with
  | nil => rfl
  | cons p rest ih =>
    simp only [ne_eq, decide_not] at ih ⊢
    have hkn : ¬(key = k) := fun hc => hne hc.symm
    by_cases hk : p.1 = key
    · have hpk : ¬(p.1 = k) := by rw [hk]; exact hkn
      simp [List.filter_cons, hk, findHandler, hpk, ih, hkn]
    · by_cases hpk : p.1 = k
      · simp [List.filter_cons, hk, findHandler, hpk, ih, hne]
      · simp [List.filter_cons, hk, findHandler, hpk, ih, hne]

/-- A string is never equal to itself extended with a dash and a suffix. -/
theorem typ_ne_qualified (t s : String) : t ≠ t ++ "-" ++ s := by
  intro hc
  have hlen := congrArg String.length hc
  have h1 : ("-" : String).length = 1 := rfl
  simp only [String.length_append, h1] at hlen
  omega

/-- Claim C7: registering a handler for a task type and then unregistering
it restores the no-handler behaviour: a later successful result for a task
of that type (with no surviving type-id entry) emits the no-handler
diagnostic notification and removes the task without any handler
invocation. -/
theorem register_unregister_restores_no_handler
    (m : HandlerMap) (h : Handler) (t : Task) (r : ActionResult)
    (hIg : t.meta.ignoreResult = false)
    (hNoId : findHandler m (t.typ ++ "-" ++ idString t.id) = none) :
    handleResult (unregisterHandler (registerHandler m t.typ h none) t.typ none) (some r) t
        = ([Event.notif (noHandlerMessage t) ("Tasks"), Event.remove t.id], none)
      ∧ countEv isInvoke
          (handleResult (unregisterHandler (registerHandler m t.typ h none) t.typ none)
            (some r) t).1 = 0 := by
  have hident : handlerIdentifier t.typ none = t.typ := rfl
  have hqual : t.typ ++ "-" ++ idString t.id ≠ t.typ :=
    Ne.symm (typ_ne_qualified t.typ (idString t.id))
  have hself : findHandler (unregisterHandler (registerHandler m t.typ h none) t.typ none)
      t.typ = none := by
    rw [unregisterHandler, hident]
    exact findHandler_filter_self _ _
  have hfb : findHandler (unregisterHandler (registerHandler m t.typ h none) t.typ none)
      (t.typ ++ "-" ++ idString t.id) = none := by
    rw [unregisterHandler, hident]
    rw [findHandler_filter_ne _ _ _ hqual]
    simp only [registerHandler, handlerIdentifier, findHandler]
    rw [if_neg (typ_ne_qualified t.typ (idString t.id))]
    exact hNoId
  have hlk : lookupHandlerK (unregisterHandler (registerHandler m t.typ h none) t.typ none) t
      = none := by
    rw [lookupHandlerK, hself, hfb]
  refine ⟨by simp [handleResult, hIg, hlk], ?_⟩
  simp [handleResult, hIg, hlk, countEv, isInvoke]

/-- Witness for C7 at a concrete table and task. -/
theorem register_unregister_restores_no_handler_witness :
    handleResult (unregisterHandler (registerHandler [] ("T") hTypeOnly none) ("T") none)
        (some cexResult) cexTask5
        = ([Event.notif (noHandlerMessage cexTask5) ("Tasks"), Event.remove (some 5)], none)
      ∧ countEv isInvoke
          (handleResult (unregisterHandler (registerHandler [] ("T") hTypeOnly none) ("T") none)
            (some cexResult) cexTask5).1 = 0 :=
  register_unregister_restores_no_handler [] hTypeOnly cexTask5 cexResult rfl rfl

/-- Claim C9: a task whose metadata sets `ignoreResult` is removed on any
delivered result — a successful one or the synthetic not-found delivery —
without any handler invocation and without any notification from the
dispatch path. -/
theorem ignoreResult_discards_without_dispatch
    (m : HandlerMap) (res : Option ActionResult) (t : Task)
    (hIg : t.meta.ignoreResult = true) :
    handleResult m res t = ([Event.remove t.id], none)
      ∧ (∀ n, t.id = some n →
          deliverNotFound m t
            = ([Event.unlock n, Event.remove (some n), Event.remove (some n)], none)) := by
  constructor
  · simp [handleResult, hIg]
  · intro n hn
    simp [deliverNotFound, hn, handleResult, hIg]

/-- Witness for C9 at a concrete task with a registered handler. -/
theorem ignoreResult_discards_without_dispatch_witness :
    handleResult c2Map (some cexResult) c2Task = ([Event.remove (some 9)], none)
      ∧ deliverNotFound c2Map c2Task
          = ([Event.unlock 9, Event.remove (some 9), Event.remove (some 9)], none) :=
  ⟨(ignoreResult_discards_without_dispatch c2Map (some cexResult) c2Task rfl).1,
    (ignoreResult_discards_without_dispatch c2Map (some cexResult) c2Task rfl).2 9 rfl⟩

/-! Section: store action error handling (claim C6). -/

def c6FailEnv : ActionEnv :=
  { apiCall := Except.error ("network error"), completion := Except.ok RVal.empty }

/-- Claim C6 counterexample: a rejection of the initial
`removeBlockchainAccount` API call escapes the `removeAccount` action
uncaught — no notification is emitted and the exception leaves the action —
because that call stands outside the try block. -/
theorem removeAccount_initial_call_uncaught_cex :
    removeAccountAction c6FailEnv ("ETH") = ([], some ("network error")) := by
  rfl

/-- Claim C6 (amended): `addAccount` catches every failure (including the
initial API call rejection) and surfaces it as a notification with no
domain-state commit, and `removeAccount` does the same for failures after
the initial API call; but a rejection of the initial
`removeBlockchainAccount` call escapes `removeAccount` uncaught, with no
notification. -/
theorem account_actions_error_handling :
    (∀ env b, (addAccountAction env b).2 = none)
      ∧ (∀ env b e, env.apiCall = Except.error e →
          addAccountAction env b = ([AEvent.notifyErr (additionErrorMsg e)], none))
      ∧ (∀ env b e, env.apiCall = Except.error e →
          removeAccountAction env b = ([], some e))
      ∧ (∀ env b e tid, env.apiCall = Except.ok tid → env.completion = Except.error e →
          removeAccountAction env b
            = ([AEvent.addTask tid, AEvent.notifyErr (removalErrorMsg e)], none))
      ∧ (∀ env b e tid, env.apiCall = Except.ok tid → env.completion = Except.error e →
          addAccountAction env b
            = ([AEvent.addTask tid, AEvent.notifyErr (additionErrorMsg e)], none)) := by
  refine ⟨fun env b => ?_, fun env b e h => ?_, fun env b e h => ?_,
    fun env b e tid h hc => ?_, fun env b e tid h hc => ?_⟩
  · cases henv : env.apiCall with
    | error e => simp [addAccountAction, henv]
    | ok tid =>
      cases hcomp : env.completion with
      | error e => simp [addAccountAction, henv, hcomp]
      | ok r => simp [addAccountAction, henv, hcomp]
  · simp [addAccountAction, h]
  · simp [removeAccountAction, h]
  · simp [removeAccountAction, h, hc]
  · simp [addAccountAction, h, hc]

def c6CompletionFailEnv : ActionEnv :=
  { apiCall := Except.ok 3, completion := Except.error ("timeout") }

/-- Witness for the amended C6 theorem at concrete action environments. -/
theorem account_actions_error_handling_witness :
    (addAccountAction c6FailEnv ("ETH")).2 = none
      ∧ removeAccountAction c6CompletionFailEnv ("ETH")
        = ([AEvent.addTask 3, AEvent.notifyErr (removalErrorMsg ("timeout"))], none) :=
  ⟨account_actions_error_handling.1 c6FailEnv ("ETH"),
    account_actions_error_handling.2.2.2.1 c6CompletionFailEnv ("ETH") ("timeout") 3 rfl rfl⟩

/-! Section: the task polling endpoint (claim C8). -/

/-- A task-not-found rejection characterization helper: when the status is
not 404, `queryTaskResult` never rejects with `TaskNotFoundError`. -/
theorem queryTaskResult_not404 (id : Nat) (resp : TaskResponse)
    (h404 : resp.status ≠ 404) :
    ∀ msg, queryTaskResult id resp ≠ Except.error (QueryError.taskNotFound msg) := by
  intro msg hmsg
  have hbeq : (resp.status == 404) = false := by simp [h404]
  unfold queryTaskResult at hmsg
  rw [hbeq] at hmsg
  by_cases hv : validTaskStatus resp.status = true
  · simp only [hv, Bool.not_true, if_false, if_neg] at hmsg
    rcases hres : resp.result with _ | env
    · rw [hres] at hmsg; simp at hmsg
    · rcases hout : env.outcome with _ | oc
      · rw [hres] at hmsg; simp [hout] at hmsg
      · rw [hres] at hmsg; simp [hout] at hmsg
  · have hv2 : validTaskStatus resp.status = false := by
      cases hb : validTaskStatus resp.status
      · rfl
      · exact absurd hb hv
    rw [hv2] at hmsg
    simp at hmsg

/-- Claim C8: `queryTaskResult` rejects with `TaskNotFoundError` exactly
when the polling endpoint answers with HTTP 404; on a 2xx response it
resolves with the outcome of the result envelope, and rejects with the
generic no-result error when the envelope carries no outcome. -/
theorem queryTaskResult_spec (id : Nat) (resp : TaskResponse) :
    ((∃ msg, queryTaskResult id resp = Except.error (QueryError.taskNotFound msg))
        ↔ resp.status = 404)
      ∧ (∀ env outcome, 200 ≤ resp.status → resp.status < 300 →
          resp.result = some env → env.outcome = some outcome →
          queryTaskResult id resp = Except.ok outcome)
      ∧ (∀ env, 200 ≤ resp.status → resp.status < 300 →
          resp.result = some env → env.outcome = none →
          queryTaskResult id resp = Except.error (QueryError.apiError ("No result"))) := by
  refine ⟨⟨?_, ?_⟩, fun env outcome h2 h3 hres hout => ?_, fun env h2 h3 hres hout => ?_⟩
  · rintro ⟨msg, hmsg⟩
    by_contra h404
    exact queryTaskResult_not404 id resp h404 msg hmsg
  · intro h404
    have hv : validTaskStatus resp.status = true := by rw [h404]; rfl
    have hb : (resp.status == 404) = true := by rw [h404]; rfl
    exact ⟨"Task with id " ++ toString id ++ " not found", by simp [queryTaskResult, hv, hb]⟩
  · have hv : validTaskStatus resp.status = true := by
      simp [validTaskStatus]
      omega
    have hb : (resp.status == 404) = false := by
      have : resp.status ≠ 404 := by omega
      simp [this]
    simp [queryTaskResult, hv, hb, hres, hout]
  · have hv : validTaskStatus resp.status = true := by
      simp [validTaskStatus]
      omega
    have hb : (resp.status == 404) = false := by
      have : resp.status ≠ 404 := by omega
      simp [this]
    simp [queryTaskResult, hv, hb, hres, hout]

def c8OkResponse : TaskResponse :=
  { status := 200, result := some { outcome := some cexResult }, message := "" }

/-- Witness for C8 at a concrete 200 response carrying an outcome. -/
theorem queryTaskResult_spec_witness :
    queryTaskResult 7 c8OkResponse = Except.ok cexResult :=
  (queryTaskResult_spec 7 c8OkResponse).2.1 { outcome := some cexResult } cexResult
    (by decide) (by decide) rfl rfl

/-! Section: the removeTag helper and store action (claim C10). -/

/-- Claim C10: the `removeTag` helper returns null both on a null tag list
and when the tag is absent; hence the `removeTag` store action nulls the
tags of every xpub account that does not carry the removed tag (erasing its
other tags), while accounts processed through `removeTags` that do not
carry the tag are left unchanged. -/
theorem removeTag_null_or_absent :
    (∀ tag, removeTag none tag = none)
      ∧ (∀ ts tag, tag ∉ ts → removeTag (some ts) tag = none)
      ∧ (∀ tag xpub ts, xpub.tags = some ts → tag ∉ ts → (updateXpub tag xpub).tags = none)
      ∧ (∀ eth btc tag,
          (removeTagAction eth btc tag).2.xpubs = btc.xpubs.map (updateXpub tag))
      ∧ (∀ tag a, removeTag a.tags tag = none → applyRemoveTag tag a = a)
      ∧ (∀ data tag, removeTags data tag = data.map (applyRemoveTag tag)) := by
  have habsent : ∀ (ts : List String) (tag : String), tag ∉ ts →
      removeTag (some ts) tag = none := by
    intro ts tag h
    have hidx : ts.indexOf tag = ts.length := List.indexOf_eq_length.mpr h
    simp [removeTag, hidx]
  refine ⟨fun tag => rfl, habsent, fun tag xpub ts hts habs => ?_,
    fun eth btc tag => rfl, fun tag a h => ?_, fun data tag => rfl⟩
  · simp [updateXpub, hts, habsent ts tag habs]
  · simp [applyRemoveTag, h]

/-- Witness for C10 at a concrete xpub account carrying unrelated tags. -/
theorem removeTag_null_or_absent_witness :
    removeTag (some [("kraken"), ("cold")]) ("hot") = none
      ∧ (updateXpub ("hot")
          { xpub := "xpub123", tags := some [("kraken"), ("cold")],
            addresses := none }).tags = none :=
  ⟨removeTag_null_or_absent.2.1 [("kraken"), ("cold")] ("hot") (by decide),
    removeTag_null_or_absent.2.2.1 ("hot")
      { xpub := "xpub123", tags := some [("kraken"), ("cold")], addresses := none }
      [("kraken"), ("cold")] rfl (by decide)⟩

end Rotki
